import Mathlib

/-!
Verification development for the nauyaca Gemini protocol implementation.

The definitions below are a shallow embedding of the Python sources:
bytes are modelled as `List Nat`, the SQLite-backed TOFU table as a list
of rows, and the asyncio protocol callbacks as pure state-passing
functions.  Modules that are absent from the source tree (the protocol
constants, the status taxonomy, the response value type and the URL
parser) are reconstructed from the specification and are marked as such
in their doc comments.
-/

namespace Nauyaca

/-- Modelled from the spec: the missing module `protocol.constants` fixes
the maximum request size (URI plus CR LF) at 1024 bytes. -/
def MAX_REQUEST_SIZE : Nat := 1024

/-- Modelled from the spec: the missing module `protocol.constants` fixes
the default redirect hop cap at 5. -/
def MAX_REDIRECTS : Nat := 5

/-- Modelled from the spec: status 59 BAD REQUEST from the missing module
`protocol.status`. -/
def StatusCode.BAD_REQUEST : Nat := 59

/-- Modelled from the spec: status 51 NOT FOUND from the missing module
`protocol.status`. -/
def StatusCode.NOT_FOUND : Nat := 51

/-- Modelled from the spec: status 20 SUCCESS from the missing module
`protocol.status`. -/
def StatusCode.SUCCESS : Nat := 20

/-- Modelled from the spec: the predicate `is_redirect` of the missing
module `protocol.status` holds exactly for the 3x class (30 to 39). -/
def is_redirect (status : Nat) : Bool :=
  30 ≤ status && status ≤ 39

/-- Modelled from the spec: the predicate `is_success` of the missing
module `protocol.status` holds exactly for the 2x class (20 to 29). -/
def is_success (status : Nat) : Bool :=
  20 ≤ status && status ≤ 29

/-- Modelled from the spec: the response value type of the missing module
`protocol.response`: status, meta, optional body, optional originating
URL.  The Python type is a frozen dataclass with `body` and `url`
defaulting to `None`. -/
structure GeminiResponse where
  status : Nat
  meta : String
  body : Option String := none
  url : Option String := none
deriving DecidableEq, Repr

/-- Modelled from the spec: the `redirect_url` property of the missing
module `protocol.response` returns `meta` for a 3x response and `None`
otherwise. -/
def GeminiResponse.redirect_url (r : GeminiResponse) : Option String :=
  if is_redirect r.status then some r.meta else none

/-- Modelled from the spec: the request value type of the missing module
`protocol.request`, restricted to the fields the embedded code reads:
the request path and the normalized URL. -/
structure GeminiRequest where
  path : String
  normalized_url : String
deriving DecidableEq, Repr

/-- Modelled from the spec: a certificate is abstracted by its SHA-256
fingerprint, the only attribute the TOFU layer reads (via
`get_certificate_fingerprint` of the missing module
`security.certificates`). -/
structure Cert where
  fingerprint : String
deriving DecidableEq, Repr

/-- One row of the `known_hosts` table of `security/tofu.py`, keyed by
`(hostname, port)`. -/
structure TofuRow where
  hostname : String
  port : Nat
  fingerprint : String
  first_seen : String
  last_seen : String
deriving DecidableEq, Repr

/-- The TOFU database state: the rows of the `known_hosts` table. -/
abbrev TOFUDatabase := List TofuRow

/-- The SELECT by primary key used by `trust`, `verify` and
`get_host_info` in `security/tofu.py`. -/
def tofuLookup (db : TOFUDatabase) (hostname : String) (port : Nat) :
    Option TofuRow :=
  db.find? fun r => r.hostname == hostname && r.port == port

/-- The UPDATE statement of `TOFUDatabase.verify`: set `last_seen` on the
rows matching the primary key. -/
def tofuTouch (db : TOFUDatabase) (now hostname : String) (port : Nat) :
    TOFUDatabase :=
  db.map fun r =>
    if r.hostname == hostname && r.port == port then
      { r with last_seen := now } else r

/-- The UPDATE statement of `TOFUDatabase.trust`: set `fingerprint` and
`last_seen` on the rows matching the primary key. -/
def tofuReplace (db : TOFUDatabase) (now hostname : String) (port : Nat)
    (fp : String) : TOFUDatabase :=
  db.map fun r =>
    if r.hostname == hostname && r.port == port then
      { r with fingerprint := fp, last_seen := now } else r

/-- `TOFUDatabase.verify` of `security/tofu.py`.  The ambient clock is
passed in as `now`.  Returns the new database state together with the
`(is_valid, message)` pair of the Python function. -/
def TOFUDatabase.verify (db : TOFUDatabase) (now hostname : String)
    (port : Nat) (cert : Cert) : TOFUDatabase × (Bool × String) :=
  match tofuLookup db hostname port with
  | none => (db, (true, "first_use"))
  | some row =>
    if row.fingerprint == cert.fingerprint then
      (tofuTouch db now hostname port, (true, ""))
    else
      (db, (false, "changed"))

/-- `TOFUDatabase.trust` of `security/tofu.py`: INSERT a fresh row with
`first_seen = last_seen = now` when the key is absent, otherwise UPDATE
`fingerprint` and `last_seen` in place. -/
def TOFUDatabase.trust (db : TOFUDatabase) (now hostname : String)
    (port : Nat) (cert : Cert) : TOFUDatabase :=
  match tofuLookup db hostname port with
  | none =>
    db ++ [{ hostname := hostname, port := port,
             fingerprint := cert.fingerprint,
             first_seen := now, last_seen := now }]
  | some _ => tofuReplace db now hostname port cert.fingerprint

/-- Modelled from the spec: the scheme component of a URL as extracted by
the missing module `utils.url` (the text before the first colon). -/
def urlScheme (url : String) : String :=
  String.mk (url.data.takeWhile fun c => c ≠ ':')

/-- The failures the client session of `client/session.py` can raise
while fetching, together with the `CERTIFICATE_CHANGED` failure that the
specification demands (listed here so that its absence from every code
path is expressible). -/
inductive FetchError where
  /-- Raised by the URL parser and validator for a URI outside the
  gemini scheme.  Modelled from the spec: `utils.url` is missing. -/
  | invalidUrl (url : String)
  /-- `ValueError("Redirect loop detected: ...")` in
  `_fetch_with_redirects`. -/
  | redirectLoop (url : String)
  /-- `ValueError("Maximum redirects (...) exceeded at: ...")` in
  `_fetch_with_redirects`. -/
  | tooManyRedirects (url : String)
  /-- `ValueError("Redirect response missing URL: ...")` in
  `_fetch_with_redirects`. -/
  | missingRedirectUrl (meta : String)
  /-- The TOFU mismatch failure required by the specification, carrying
  host, port and the old and new fingerprints. -/
  | certificateChanged (hostname : String) (port : Nat)
      (oldFingerprint newFingerprint : String)
deriving DecidableEq, Repr

/-- `GeminiClient._fetch_single` of `client/session.py`.  The network is
abstracted by `net`, mapping a URL to the response its server returns
once the TLS transaction completes.  The URL is first parsed by
`parse_url`; per the spec the parser rejects URIs outside the gemini
scheme (`utils.url` is missing from the sources, so that step is
spec-modelled).  The body performs no TOFU interaction of any kind. -/
def fetchSingle (net : String → GeminiResponse) (url : String) :
    Except FetchError GeminiResponse :=
  if urlScheme url = "gemini" then .ok (net url) else .error (.invalidUrl url)

/-- `GeminiClient._fetch_with_redirects` of `client/session.py`.  Besides
the result, the second component records the URLs handed to
`_fetch_single`, in order, so that statements about which requests were
issued can be made.  The structure mirrors the Python exactly: loop
check, hop-cap check, single fetch, then recursion on the redirect
target with the current URL appended to the chain. -/
def fetchWithRedirects (net : String → GeminiResponse) (url : String)
    (maxRedirects : Nat) (redirectChain : List String) :
    Except FetchError GeminiResponse × List String :=
  if url ∈ redirectChain then
    (.error (.redirectLoop url), [])
  else if maxRedirects ≤ redirectChain.length then
    (.error (.tooManyRedirects url), [])
  else
    match fetchSingle net url with
    | .error e => (.error e, [url])
    | .ok response =>
      if is_redirect response.status then
        match response.redirect_url with
        | none => (.error (.missingRedirectUrl response.meta), [url])
        | some target =>
          if target = "" then
            (.error (.missingRedirectUrl response.meta), [url])
          else
            let rest := fetchWithRedirects net target maxRedirects
              (redirectChain ++ [url])
            (rest.1, url :: rest.2)
      else
        (.ok response, [url])
termination_by maxRedirects - redirectChain.length
decreasing_by
  simp only [List.length_append, List.length_cons, List.length_nil]
  omega

/-- `GeminiClient.fetch` of `client/session.py`: validate the URL, then
either follow redirects or perform a single fetch.  The issued-request
log is returned alongside the result. -/
def GeminiClient.fetch (net : String → GeminiResponse) (url : String)
    (followRedirects : Bool) (maxRedirects : Nat) :
    Except FetchError GeminiResponse × List String :=
  if urlScheme url = "gemini" then
    if followRedirects then
      fetchWithRedirects net url maxRedirects []
    else
      (fetchSingle net url, [url])
  else
    (.error (.invalidUrl url), [])

/-- The two TLS verification modes `GeminiClient.__init__` can configure:
`ssl.CERT_REQUIRED` with hostname checking, or `ssl.CERT_NONE` without
(testing mode). -/
inductive VerifyMode where
  | certRequired
  | certNone
deriving DecidableEq, Repr

/-- The configuration state produced by `GeminiClient.__init__` in
`client/session.py` (the float-valued timeout is omitted; no claim
mentions it).  There is no TOFU database field: the constructor in the
sources takes none and creates none. -/
structure GeminiClientConfig where
  maxRedirects : Nat
  verifyMode : VerifyMode
  checkHostname : Bool
deriving DecidableEq, Repr

/-- The default value of the `verify_ssl` keyword parameter in the
signature of `GeminiClient.__init__`. -/
def verifySslDefault : Bool := false

/-- `GeminiClient.__init__` of `client/session.py` with `ssl_context`
left as `None`: the SSL context is derived from `verify_ssl` alone. -/
def GeminiClient.init (max_redirects : Nat := MAX_REDIRECTS)
    (verify_ssl : Bool := verifySslDefault) : GeminiClientConfig :=
  if verify_ssl then
    { maxRedirects := max_redirects,
      verifyMode := .certRequired, checkHostname := true }
  else
    { maxRedirects := max_redirects,
      verifyMode := .certNone, checkHostname := false }

/-- The client obtained by constructing `GeminiClient()` with no explicit
arguments. -/
def defaultGeminiClient : GeminiClientConfig := GeminiClient.init

/-- The CR LF terminator as bytes. -/
def CRLF : List Nat := [13, 10]

/-- The Python expression pair `CRLF in buffer` and
`buffer.split(CRLF, 1)` of `server/protocol.py`: locate the first
occurrence of the two-byte sequence CR LF and split around it.  Returns
`none` when the sequence does not occur. -/
def splitCRLF : List Nat → Option (List Nat × List Nat)
  | [] => none
  | [_] => none
  | x :: y :: rest =>
    if x = 13 ∧ y = 10 then some ([], rest)
    else (splitCRLF (y :: rest)).map fun p => (x :: p.1, p.2)

/-- The observable actions of `GeminiServerProtocol.data_received` in
`server/protocol.py`: either `_send_error_response(status, message)`
(which writes the error header and closes the transport) or
`_handle_request(line)` (which decodes and parses the line, runs the
request handler, writes the resulting response and closes the
transport). -/
inductive SrvEffect where
  | sendError (status : Nat) (message : String)
  | handleLine (line : List Nat)
deriving DecidableEq, Repr

/-- The oversize-request action of `data_received`:
`_send_error_response(StatusCode.BAD_REQUEST, "Request exceeds maximum
size (1024 bytes)")`. -/
def oversizeEffect : SrvEffect :=
  .sendError StatusCode.BAD_REQUEST "Request exceeds maximum size (1024 bytes)"

/-- `GeminiServerProtocol.data_received` of `server/protocol.py`: append
the chunk to the buffer; if the buffer now exceeds `MAX_REQUEST_SIZE`,
send the 59 error and return; otherwise, if CR LF occurs in the buffer,
split at its first occurrence and hand the line to `_handle_request`.
Returns the new buffer and the actions taken during the call. -/
def dataReceived (buffer data : List Nat) : List Nat × List SrvEffect :=
  let buf := buffer ++ data
  if MAX_REQUEST_SIZE < buf.length then
    (buf, [oversizeEffect])
  else
    match splitCRLF buf with
    | some (line, _) => (buf, [.handleLine line])
    | none => (buf, [])

/-- Feeding a sequence of chunks to `data_received`, accumulating the
buffer and concatenating the actions of every call. -/
def runChunks (buffer : List Nat) : List (List Nat) →
    List Nat × List SrvEffect
  | [] => (buffer, [])
  | c :: cs =>
    let step := dataReceived buffer c
    let rest := runChunks step.1 cs
    (rest.1, step.2 ++ rest.2)

/-- `GeminiServerProtocol._send_response` of `server/protocol.py` at the
wire level: write the header `"<status> <meta>\r\n"`, then the body when
it is truthy (non-`None` and non-empty); the transport is closed
afterwards.  The function returns the full byte string written. -/
def sendResponseWire (r : GeminiResponse) : String :=
  let header := toString r.status ++ " " ++ r.meta ++ "\r\n"
  match r.body with
  | some b => if b = "" then header else header ++ b
  | none => header

/-- The `default_404_handler` that `start_server` in `server/server.py`
registers on the router: a 51 NOT FOUND response whose body is the
gemtext produced by `error_404` from the content-template module (kept
abstract as the parameter `error404`; the templates are outside the
scope of the spec). -/
def default_404_handler (error404 : String → String)
    (request : GeminiRequest) : GeminiResponse :=
  { status := StatusCode.NOT_FOUND, meta := "text/gemini",
    body := some (error404 request.path) }

/-- Whether `response.url` is falsy in Python (`None` or the empty
string), the condition `if not response.url` tested by
`GeminiServerProtocol._handle_request`. -/
def urlUnset (r : GeminiResponse) : Bool :=
  match r.url with
  | none => true
  | some s => s == ""

/-- The response finalization step of
`GeminiServerProtocol._handle_request` in `server/protocol.py`: when the
handler response carries no URL, rebuild it with the same status, meta
and body and the normalized request URL; otherwise pass it through
untouched. -/
def finalizeResponse (request : GeminiRequest) (response : GeminiResponse) :
    GeminiResponse :=
  if urlUnset response then
    { status := response.status, meta := response.meta,
      body := response.body, url := some request.normalized_url }
  else
    response

/-! ### Helper lemmas about the TOFU table -/

lemma tofuLookup_touch (db : TOFUDatabase) (now hostname : String)
    (port : Nat) :
    tofuLookup (tofuTouch db now hostname port) hostname port =
      (tofuLookup db hostname port).map fun r => { r with last_seen := now } := by
  induction db with
  | nil => rfl
  | cons r rs ih =>
    by_cases hk : (r.hostname == hostname && r.port == port) = true
    · simp [tofuLookup, tofuTouch, List.find?, hk] at ih ⊢
    · simp [tofuLookup, tofuTouch, List.find?, hk] at ih ⊢
      exact ih

lemma tofuLookup_replace (db : TOFUDatabase) (now hostname : String)
    (port : Nat) (fp : String) :
    tofuLookup (tofuReplace db now hostname port fp) hostname port =
      (tofuLookup db hostname port).map
        fun r => { r with fingerprint := fp, last_seen := now } := by
  induction db with
  | nil => rfl
  | cons r rs ih =>
    by_cases hk : (r.hostname == hostname && r.port == port) = true
    · simp [tofuLookup, tofuReplace, List.find?, hk] at ih ⊢
    · simp [tofuLookup, tofuReplace, List.find?, hk] at ih ⊢
      exact ih

lemma tofuLookup_append_single (db : TOFUDatabase) (hostname : String)
    (port : Nat) (row : TofuRow)
    (hnone : tofuLookup db hostname port = none)
    (hrow : (row.hostname == hostname && row.port == port) = true) :
    tofuLookup (db ++ [row]) hostname port = some row := by
  induction db with
  | nil => simp [tofuLookup, List.find?, hrow]
  | cons r rs ih =>
    by_cases hk : ((fun r : TofuRow =>
        r.hostname == hostname && r.port == port) r = true)
    · rw [tofuLookup, @List.find?_cons_of_pos TofuRow
        (fun r : TofuRow => r.hostname == hostname && r.port == port)
        r rs hk] at hnone
      exact absurd hnone (by simp)
    · rw [tofuLookup, @List.find?_cons_of_neg TofuRow
        (fun r : TofuRow => r.hostname == hostname && r.port == port)
        r rs hk] at hnone
      rw [List.cons_append, tofuLookup, @List.find?_cons_of_neg TofuRow
        (fun r : TofuRow => r.hostname == hostname && r.port == port)
        r (rs ++ [row]) hk]
      exact ih hnone

/-! ### Claims about the TOFU store -/

/-- C7: for a stored record, `verify` with the matching fingerprint
returns the valid result `(True, "")` and rewrites the last_seen stamp
of the record to the current time, while `verify` with any other
fingerprint returns the changed outcome `(False, "changed")`. -/
theorem tofu_verify_match_and_change (db : TOFUDatabase)
    (now hostname : String) (port : Nat) (row : TofuRow)
    (hrow : tofuLookup db hostname port = some row) :
    (∀ cert : Cert, cert.fingerprint = row.fingerprint →
      TOFUDatabase.verify db now hostname port cert =
        (tofuTouch db now hostname port, (true, "")) ∧
      tofuLookup (TOFUDatabase.verify db now hostname port cert).1
          hostname port = some { row with last_seen := now }) ∧
    (∀ cert : Cert, cert.fingerprint ≠ row.fingerprint →
      TOFUDatabase.verify db now hostname port cert =
        (db, (false, "changed"))) := by
  constructor
  · intro cert hfp
    have hv : TOFUDatabase.verify db now hostname port cert =
        (tofuTouch db now hostname port, (true, "")) := by
      simp [TOFUDatabase.verify, hrow, hfp]
    refine ⟨hv, ?_⟩
    rw [hv]
    simp [tofuLookup_touch, hrow]
  · intro cert hfp
    have : (row.fingerprint == cert.fingerprint) = false := by
      simp [BEq.beq]
      exact fun h => hfp h.symm
    simp [TOFUDatabase.verify, hrow, this]

/-- Witness for C7 at a concrete database. -/
theorem tofu_verify_match_and_change_witness :
    tofuLookup [⟨"example.com", 1965, "sha256:aa", "t0", "t1"⟩]
        "example.com" 1965 = some ⟨"example.com", 1965, "sha256:aa", "t0", "t1"⟩ ∧
    TOFUDatabase.verify [⟨"example.com", 1965, "sha256:aa", "t0", "t1"⟩]
        "t2" "example.com" 1965 ⟨"sha256:aa"⟩ =
      (tofuTouch [⟨"example.com", 1965, "sha256:aa", "t0", "t1"⟩]
        "t2" "example.com" 1965, (true, "")) ∧
    TOFUDatabase.verify [⟨"example.com", 1965, "sha256:aa", "t0", "t1"⟩]
        "t2" "example.com" 1965 ⟨"sha256:bb"⟩ =
      ([⟨"example.com", 1965, "sha256:aa", "t0", "t1"⟩], (false, "changed")) := by
  refine ⟨by decide, ?_, ?_⟩
  · exact ((tofu_verify_match_and_change
      [⟨"example.com", 1965, "sha256:aa", "t0", "t1"⟩] "t2" "example.com" 1965
      ⟨"example.com", 1965, "sha256:aa", "t0", "t1"⟩
      (by decide)).1 ⟨"sha256:aa"⟩ rfl).1
  · exact (tofu_verify_match_and_change
      [⟨"example.com", 1965, "sha256:aa", "t0", "t1"⟩] "t2" "example.com" 1965
      ⟨"example.com", 1965, "sha256:aa", "t0", "t1"⟩
      (by decide)).2 ⟨"sha256:bb"⟩ (by decide)

/-- C8: `verify` on a fingerprint mismatch returns `(False, "changed")`
and performs no database write: the state is returned exactly as it was,
so the stored record keeps its fingerprint, first_seen and last_seen. -/
theorem tofu_verify_changed_leaves_db_unchanged (db : TOFUDatabase)
    (now hostname : String) (port : Nat) (row : TofuRow) (cert : Cert)
    (hrow : tofuLookup db hostname port = some row)
    (hfp : cert.fingerprint ≠ row.fingerprint) :
    TOFUDatabase.verify db now hostname port cert = (db, (false, "changed")) ∧
    tofuLookup (TOFUDatabase.verify db now hostname port cert).1
        hostname port = some row := by
  have hbeq : (row.fingerprint == cert.fingerprint) = false := by
    simp [BEq.beq]
    exact fun h => hfp h.symm
  constructor
  · simp [TOFUDatabase.verify, hrow, hbeq]
  · simp [TOFUDatabase.verify, hrow, hbeq]

/-- Witness for C8 at a concrete database. -/
theorem tofu_verify_changed_leaves_db_unchanged_witness :
    tofuLookup [⟨"h", 1965, "sha256:aa", "t0", "t1"⟩] "h" 1965 =
      some ⟨"h", 1965, "sha256:aa", "t0", "t1"⟩ ∧
    ("sha256:bb" : String) ≠ "sha256:aa" ∧
    TOFUDatabase.verify [⟨"h", 1965, "sha256:aa", "t0", "t1"⟩]
        "t2" "h" 1965 ⟨"sha256:bb"⟩ =
      ([⟨"h", 1965, "sha256:aa", "t0", "t1"⟩], (false, "changed")) := by
  refine ⟨by decide, by decide, ?_⟩
  exact (tofu_verify_changed_leaves_db_unchanged
    [⟨"h", 1965, "sha256:aa", "t0", "t1"⟩] "t2" "h" 1965
    ⟨"h", 1965, "sha256:aa", "t0", "t1"⟩ ⟨"sha256:bb"⟩
    (by decide) (by decide)).1

/-- C9: `trust` on an existing record replaces the fingerprint and
last_seen but leaves first_seen unchanged; `trust` on an absent key
inserts a record whose first_seen equals its last_seen. -/
theorem tofu_trust_preserves_first_seen (db : TOFUDatabase)
    (now hostname : String) (port : Nat) (cert : Cert) :
    (∀ row : TofuRow, tofuLookup db hostname port = some row →
      tofuLookup (TOFUDatabase.trust db now hostname port cert)
          hostname port =
        some { row with fingerprint := cert.fingerprint, last_seen := now }) ∧
    (tofuLookup db hostname port = none →
      tofuLookup (TOFUDatabase.trust db now hostname port cert)
          hostname port =
        some { hostname := hostname, port := port,
               fingerprint := cert.fingerprint,
               first_seen := now, last_seen := now }) := by
  constructor
  · intro row hrow
    simp [TOFUDatabase.trust, hrow, tofuLookup_replace]
  · intro hnone
    simp [TOFUDatabase.trust, hnone]
    exact tofuLookup_append_single db hostname port _ hnone (by simp)

/-- Witness for C9: a known host and a fresh host. -/
theorem tofu_trust_preserves_first_seen_witness :
    tofuLookup [⟨"h", 1965, "sha256:aa", "t0", "t1"⟩] "h" 1965 =
      some ⟨"h", 1965, "sha256:aa", "t0", "t1"⟩ ∧
    tofuLookup (TOFUDatabase.trust [⟨"h", 1965, "sha256:aa", "t0", "t1"⟩]
        "t2" "h" 1965 ⟨"sha256:bb"⟩) "h" 1965 =
      some ⟨"h", 1965, "sha256:bb", "t0", "t2"⟩ ∧
    tofuLookup (TOFUDatabase.trust [] "t3" "g" 1965 ⟨"sha256:cc"⟩) "g" 1965 =
      some ⟨"g", 1965, "sha256:cc", "t3", "t3"⟩ := by
  refine ⟨by decide, ?_, ?_⟩
  · exact (tofu_trust_preserves_first_seen
      [⟨"h", 1965, "sha256:aa", "t0", "t1"⟩] "t2" "h" 1965 ⟨"sha256:bb"⟩).1
      ⟨"h", 1965, "sha256:aa", "t0", "t1"⟩ (by decide)
  · exact (tofu_trust_preserves_first_seen [] "t3" "g" 1965 ⟨"sha256:cc"⟩).2
      (by decide)

/-! ### Claims about the server response path -/

/-- C10: the server engine forwards handler responses unchanged when they
carry a URL, and otherwise rebuilds them with the same status, meta and
body and the normalized request URL. -/
theorem finalize_response_sets_url_when_unset (request : GeminiRequest)
    (response : GeminiResponse) :
    (urlUnset response = true →
      finalizeResponse request response =
        { status := response.status, meta := response.meta,
          body := response.body, url := some request.normalized_url }) ∧
    (urlUnset response = false →
      finalizeResponse request response = response) := by
  constructor
  · intro h
    simp [finalizeResponse, h]
  · intro h
    simp [finalizeResponse, h]

/-- Witness for C10: a handler response without a URL gets the normalized
request URL; one with a URL passes through. -/
theorem finalize_response_sets_url_when_unset_witness :
    urlUnset { status := 20, meta := "text/gemini" } = true ∧
    finalizeResponse ⟨"/p", "gemini://h/p"⟩ { status := 20, meta := "text/gemini" } =
      { status := 20, meta := "text/gemini", body := none,
        url := some "gemini://h/p" } ∧
    urlUnset { status := 20, meta := "text/gemini",
               url := some "gemini://x/" } = false ∧
    finalizeResponse ⟨"/p", "gemini://h/p"⟩
        { status := 20, meta := "text/gemini", url := some "gemini://x/" } =
      { status := 20, meta := "text/gemini", url := some "gemini://x/" } := by
  refine ⟨by decide, ?_, by decide, ?_⟩
  · exact (finalize_response_sets_url_when_unset ⟨"/p", "gemini://h/p"⟩
      { status := 20, meta := "text/gemini" }).1 (by decide)
  · exact (finalize_response_sets_url_when_unset ⟨"/p", "gemini://h/p"⟩
      { status := 20, meta := "text/gemini", url := some "gemini://x/" }).2
      (by decide)

/-- C4 (divergence): `_send_response` writes the body bytes after the
header whenever the body is non-empty, with no check of the status
class, and the default 404 handler registered by `start_server` does
produce a 51 response with a non-empty body; the wire therefore carries
bytes after the terminating CR LF of a non-2x header, contradicting the
wire contract of the spec. -/
theorem server_writes_body_for_default_404 (error404 : String → String)
    (request : GeminiRequest) (hb : error404 request.path ≠ "") :
    sendResponseWire (default_404_handler error404 request) =
      "51 text/gemini\r\n" ++ error404 request.path ∧
    sendResponseWire (default_404_handler error404 request) ≠
      "51 text/gemini\r\n" := by
  have hwire : sendResponseWire (default_404_handler error404 request) =
      "51 text/gemini\r\n" ++ error404 request.path := by
    simp only [sendResponseWire, default_404_handler, if_neg hb]
    rfl
  refine ⟨hwire, ?_⟩
  rw [hwire]
  intro h
  apply hb
  have hlen := congrArg String.length h
  rw [String.length_append] at hlen
  have : (error404 request.path).length = 0 := by omega
  cases hs : error404 request.path with
  | mk data =>
    rw [hs] at this
    cases data with
    | nil => rfl
    | cons c cs => simp [String.length, hs] at this

/-- Witness for C4: the body of a concrete 404 page is written after the
51 header. -/
theorem server_writes_body_for_default_404_witness :
    (fun _ : String => "# Not Found") "/missing" ≠ "" ∧
    sendResponseWire (default_404_handler (fun _ => "# Not Found")
        ⟨"/missing", "gemini://h/missing"⟩) = "51 text/gemini\r\n# Not Found" := by
  refine ⟨by decide, ?_⟩
  exact (server_writes_body_for_default_404 (fun _ => "# Not Found")
    ⟨"/missing", "gemini://h/missing"⟩ (by decide)).1

/-! ### Claims about the client session -/

/-- C3 (divergence): the constructor defaults of `GeminiClient` are the
testing mode: `verify_ssl` defaults to `False` and the no-argument
client carries a `CERT_NONE` context without hostname checking, not the
secure `verify_ssl=True` default the spec adopts. -/
theorem default_client_is_testing_mode :
    verifySslDefault = false ∧
    defaultGeminiClient.verifyMode = VerifyMode.certNone ∧
    defaultGeminiClient.checkHostname = false ∧
    defaultGeminiClient.maxRedirects = MAX_REDIRECTS := by
  refine ⟨rfl, rfl, rfl, rfl⟩

/-- C1 (divergence): the TOFU store reports `(False, "changed")` for the
presented certificate, yet `GeminiClient.fetch` returns the network
response to the caller: the fetch pipeline of `client/session.py` never
consults a TOFU database (the client holds none), so no
`CertificateChanged` failure can occur and the response is surfaced. -/
theorem fetch_returns_response_despite_tofu_mismatch (db : TOFUDatabase)
    (now hostname : String) (port : Nat) (row : TofuRow) (cert : Cert)
    (net : String → GeminiResponse) (url : String) (maxRedirects : Nat)
    (hrow : tofuLookup db hostname port = some row)
    (hfp : cert.fingerprint ≠ row.fingerprint)
    (hscheme : urlScheme url = "gemini") :
    TOFUDatabase.verify db now hostname port cert = (db, (false, "changed")) ∧
    GeminiClient.fetch net url false maxRedirects = (.ok (net url), [url]) := by
  have hbeq : (row.fingerprint == cert.fingerprint) = false := by
    simp [BEq.beq]
    exact fun h => hfp h.symm
  constructor
  · simp [TOFUDatabase.verify, hrow, hbeq]
  · simp [GeminiClient.fetch, fetchSingle, hscheme]

/-- Witness for C1: a database pinning fingerprint aa for the host while
the handshake presents bb; the fetch still returns the 20 response. -/
theorem fetch_returns_response_despite_tofu_mismatch_witness :
    tofuLookup [⟨"example.com", 1965, "sha256:aa", "t0", "t1"⟩]
        "example.com" 1965 = some ⟨"example.com", 1965, "sha256:aa", "t0", "t1"⟩ ∧
    ("sha256:bb" : String) ≠ "sha256:aa" ∧
    urlScheme "gemini://example.com/" = "gemini" ∧
    GeminiClient.fetch
        (fun _ => { status := 20, meta := "text/gemini", body := some "ok" })
        "gemini://example.com/" false 5 =
      (.ok { status := 20, meta := "text/gemini", body := some "ok" },
        ["gemini://example.com/"]) := by
  refine ⟨by decide, by decide, by decide, ?_⟩
  exact (fetch_returns_response_despite_tofu_mismatch
    [⟨"example.com", 1965, "sha256:aa", "t0", "t1"⟩] "t2" "example.com" 1965
    ⟨"example.com", 1965, "sha256:aa", "t0", "t1"⟩ ⟨"sha256:bb"⟩
    (fun _ => { status := 20, meta := "text/gemini", body := some "ok" })
    "gemini://example.com/" 5 (by decide) (by decide) (by decide)).2

/-- Every URL handed to `_fetch_single` during redirect following is
outside the visited chain: the loop check precedes the fetch. -/
lemma fetchWithRedirects_issues_fresh_urls (net : String → GeminiResponse) :
    ∀ (url : String) (maxRedirects : Nat) (chain : List String),
      ∀ x ∈ (fetchWithRedirects net url maxRedirects chain).2, x ∉ chain := by
  intro url maxRedirects chain
  induction url, maxRedirects, chain using fetchWithRedirects.induct net with
  | case1 url maxR chain h1 =>
    rw [fetchWithRedirects]
    simp [h1]
  | case2 url maxR chain h1 h2 =>
    rw [fetchWithRedirects]
    simp [h1, h2]
  | case3 url maxR chain h1 h2 e hfs =>
    rw [fetchWithRedirects]
    simp [h1, h2, hfs]
  | case4 url maxR chain h1 h2 response hfs hr hnone =>
    rw [fetchWithRedirects]
    simp [h1, h2, hfs, hr, hnone]
  | case5 url maxR chain h1 h2 response hfs hr htgt =>
    rw [fetchWithRedirects]
    simp [h1, h2, hfs, hr, htgt]
  | case6 url maxR chain h1 h2 response hfs hr target htgt hempty ih =>
    rw [fetchWithRedirects]
    simp only [if_neg h1, if_neg h2, hfs, hr, htgt, if_neg hempty, if_true]
    intro x hx
    rcases List.mem_cons.mp hx with hx | hx
    · exact hx ▸ h1
    · intro hc
      exact ih x hx (List.mem_append_left [url] hc)
  | case7 url maxR chain h1 h2 response hfs hr =>
    rw [fetchWithRedirects]
    simp [h1, h2, hfs, hr]

/-- C2 (divergence): `_fetch_with_redirects` contains no scheme check:
a redirect whose meta URI is outside the gemini scheme is followed, the
cross-protocol URI is handed to `_fetch_single` (second entry of the
request log), and the overall fetch fails with the invalid-URL error of
the URL parser instead of returning the redirect response as-is. -/
theorem cross_protocol_redirect_is_followed (net : String → GeminiResponse)
    (a m : String) (maxRedirects : Nat)
    (ha : urlScheme a = "gemini")
    (hnet : net a = { status := 30, meta := m })
    (hm : urlScheme m ≠ "gemini")
    (hmne : m ≠ "")
    (hmax : 2 ≤ maxRedirects) :
    GeminiClient.fetch net a true maxRedirects =
      (.error (.invalidUrl m), [a, m]) := by
  have ham : a ≠ m := fun h => hm (h ▸ ha)
  have hfa : fetchSingle net a = .ok { status := 30, meta := m } := by
    simp [fetchSingle, ha, hnet]
  have hfm : fetchSingle net m = .error (.invalidUrl m) := by
    simp [fetchSingle, hm]
  have hma : ¬ m = a := fun h => ham h.symm
  have hlen1 : ¬ maxRedirects ≤ 1 := by omega
  have hlen0 : ¬ maxRedirects = 0 := by omega
  have hinner : fetchWithRedirects net m maxRedirects [a] =
      (.error (.invalidUrl m), [m]) := by
    rw [fetchWithRedirects]
    simp [hma, hlen1, hfm]
  have houter : fetchWithRedirects net a maxRedirects [] =
      (.error (.invalidUrl m), [a, m]) := by
    rw [fetchWithRedirects]
    simp [hlen0, hfa, GeminiResponse.redirect_url, is_redirect, hmne, hinner]
  simp [GeminiClient.fetch, ha, houter]

/-- Witness for C2: upstream answers the gemini URL with a redirect to
an https URI; the client recurses on it rather than returning the
redirect response. -/
theorem cross_protocol_redirect_is_followed_witness :
    urlScheme "gemini://host/" = "gemini" ∧
    (fun u : String => if u = "gemini://host/" then
        ({ status := 30, meta := "https://x/" } : GeminiResponse)
      else { status := 20, meta := "text/gemini" }) "gemini://host/" =
      { status := 30, meta := "https://x/" } ∧
    urlScheme "https://x/" ≠ "gemini" ∧
    GeminiClient.fetch
        (fun u => if u = "gemini://host/" then
            { status := 30, meta := "https://x/" }
          else { status := 20, meta := "text/gemini" })
        "gemini://host/" true 5 =
      (.error (.invalidUrl "https://x/"), ["gemini://host/", "https://x/"]) := by
  refine ⟨by decide, by decide, by decide, ?_⟩
  exact cross_protocol_redirect_is_followed
    (fun u => if u = "gemini://host/" then
        { status := 30, meta := "https://x/" }
      else { status := 20, meta := "text/gemini" })
    "gemini://host/" "https://x/" 5 (by decide) (by decide) (by decide)
    (by decide) (by decide)

/-- C6: redirect following remembers visited URIs; in general no URL
already in the chain is ever handed to `_fetch_single`, and in the
A to B to A scenario the client fails with the redirect-loop error after
exactly two requests. -/
theorem redirect_loop_detected_without_third_request
    (net : String → GeminiResponse) (a b : String) (maxRedirects : Nat)
    (ha : urlScheme a = "gemini") (hb : urlScheme b = "gemini")
    (hab : a ≠ b)
    (hna : net a = { status := 30, meta := b })
    (hnb : net b = { status := 30, meta := a })
    (hmax : 2 ≤ maxRedirects) :
    GeminiClient.fetch net a true maxRedirects =
      (.error (.redirectLoop a), [a, b]) ∧
    (∀ (net2 : String → GeminiResponse) (u : String) (mR : Nat)
        (chain : List String),
      ∀ x ∈ (fetchWithRedirects net2 u mR chain).2, x ∉ chain) := by
  have hane : a ≠ "" := by
    intro h
    rw [h] at ha
    exact absurd ha (by decide)
  have hbne : b ≠ "" := by
    intro h
    rw [h] at hb
    exact absurd hb (by decide)
  have hfa : fetchSingle net a = .ok { status := 30, meta := b } := by
    simp [fetchSingle, ha, hna]
  have hfb : fetchSingle net b = .ok { status := 30, meta := a } := by
    simp [fetchSingle, hb, hnb]
  have hba : ¬ b = a := fun h => hab h.symm
  have hlen1 : ¬ maxRedirects ≤ 1 := by omega
  have hlen0 : ¬ maxRedirects = 0 := by omega
  have h3 : fetchWithRedirects net a maxRedirects [a, b] =
      (.error (.redirectLoop a), []) := by
    rw [fetchWithRedirects]
    simp
  have h2 : fetchWithRedirects net b maxRedirects [a] =
      (.error (.redirectLoop a), [b]) := by
    rw [fetchWithRedirects]
    simp [hba, hlen1, hfb, GeminiResponse.redirect_url, is_redirect, hane, h3]
  have h1 : fetchWithRedirects net a maxRedirects [] =
      (.error (.redirectLoop a), [a, b]) := by
    rw [fetchWithRedirects]
    simp [hlen0, hfa, GeminiResponse.redirect_url, is_redirect, hbne, h2]
  refine ⟨by simp [GeminiClient.fetch, ha, h1], ?_⟩
  intro net2 u mR chain
  exact fetchWithRedirects_issues_fresh_urls net2 u mR chain

/-- Witness for C6: two URLs redirecting to each other; the fetch stops
after the second request with the loop error. -/
theorem redirect_loop_detected_without_third_request_witness :
    urlScheme "gemini://a/" = "gemini" ∧
    urlScheme "gemini://b/" = "gemini" ∧
    ("gemini://a/" : String) ≠ "gemini://b/" ∧
    GeminiClient.fetch
        (fun u => if u = "gemini://a/" then
            { status := 30, meta := "gemini://b/" }
          else if u = "gemini://b/" then
            { status := 30, meta := "gemini://a/" }
          else { status := 20, meta := "text/gemini" })
        "gemini://a/" true 5 =
      (.error (.redirectLoop "gemini://a/"), ["gemini://a/", "gemini://b/"]) := by
  refine ⟨by decide, by decide, by decide, ?_⟩
  exact (redirect_loop_detected_without_third_request
    (fun u => if u = "gemini://a/" then
        { status := 30, meta := "gemini://b/" }
      else if u = "gemini://b/" then
        { status := 30, meta := "gemini://a/" }
      else { status := 20, meta := "text/gemini" })
    "gemini://a/" "gemini://b/" 5 (by decide) (by decide) (by decide)
    (by decide) (by decide) (by decide)).1

/-! ### Helper lemmas about CR LF framing -/

lemma splitCRLF_cons_none {x : Nat} {t : List Nat}
    (h : splitCRLF (x :: t) = none) : splitCRLF t = none := by
  cases t with
  | nil => rfl
  | cons y rest =>
    by_cases hc : x = 13 ∧ y = 10
    · simp [splitCRLF, hc] at h
    · simp only [splitCRLF, if_neg hc, Option.map_eq_none'] at h
      exact h

lemma splitCRLF_append_none (p : List Nat) :
    ∀ q, splitCRLF (p ++ q) = none → splitCRLF p = none := by
  induction p using splitCRLF.induct with
  | case1 => intro q h; rfl
  | case2 x => intro q h; rfl
  | case3 x y rest hc =>
    intro q h
    simp [splitCRLF, hc] at h
  | case4 x y rest hc ih =>
    intro q h
    simp only [List.cons_append, splitCRLF, if_neg hc, Option.map_eq_none'] at h
    simp only [splitCRLF, if_neg hc, Option.map_eq_none']
    exact ih q h

lemma splitCRLF_append_cr (l : List Nat) :
    splitCRLF l = none → splitCRLF (l ++ [13]) = none := by
  induction l using splitCRLF.induct with
  | case1 => intro h; rfl
  | case2 x =>
    intro h
    simp [splitCRLF]
  | case3 x y rest hc =>
    intro h
    simp [splitCRLF, hc] at h
  | case4 x y rest hc ih =>
    intro h
    have hsub : splitCRLF (y :: rest) = none := splitCRLF_cons_none h
    simp only [List.cons_append, splitCRLF, if_neg hc, Option.map_eq_none']
    exact ih hsub

lemma splitCRLF_append_crlf (l : List Nat) :
    splitCRLF l = none → splitCRLF (l ++ [13, 10]) = some (l, []) := by
  induction l using splitCRLF.induct with
  | case1 => intro h; rfl
  | case2 x =>
    intro h
    simp [splitCRLF]
  | case3 x y rest hc =>
    intro h
    simp [splitCRLF, hc] at h
  | case4 x y rest hc ih =>
    intro h
    have hsub : splitCRLF (y :: rest) = none := splitCRLF_cons_none h
    simp [List.cons_append, splitCRLF, if_neg hc]
    exact ih hsub

/-- A strict initial segment of the terminated request line contains no
CR LF: the terminator completes only at the very end. -/
lemma splitCRLF_partial_none (line : List Nat)
    (hline : splitCRLF line = none) (b s : List Nat)
    (hb : b ++ s = line ++ [13, 10])
    (hlen : b.length < line.length + 2) : splitCRLF b = none := by
  have hbtake : b = (line ++ [13, 10]).take b.length := by
    rw [← hb, List.take_left]
  by_cases hle : b.length ≤ line.length
  · have hbline : b = line.take b.length := by
      conv_lhs => rw [hbtake]
      rw [List.take_append_eq_append_take,
        Nat.sub_eq_zero_of_le hle, List.take_zero, List.append_nil]
    have hline2 : b ++ line.drop b.length = line := by
      nth_rewrite 1 [hbline]
      exact List.take_append_drop _ _
    apply splitCRLF_append_none b (line.drop b.length)
    rw [hline2]
    exact hline
  · have hlen1 : b.length = line.length + 1 := by omega
    have hbcr : b = line ++ [13] := by
      rw [hbtake, List.take_append_eq_append_take, hlen1,
        List.take_of_length_le (by omega)]
      simp
    rw [hbcr]
    exact splitCRLF_append_cr line hline

/-- Once the buffer is oversized, every further chunk only triggers the
59 oversize response again. -/
lemma runChunks_oversize (chunks : List (List Nat)) :
    ∀ b : List Nat, MAX_REQUEST_SIZE < b.length →
      (runChunks b chunks).2 = List.replicate chunks.length oversizeEffect := by
  induction chunks with
  | nil => intro b hb; rfl
  | cons c cs ih =>
    intro b hb
    have hbuf : MAX_REQUEST_SIZE < (b ++ c).length := by
      rw [List.length_append]
      omega
    simp only [runChunks, dataReceived, if_pos hbuf]
    rw [ih (b ++ c) hbuf]
    simp [List.replicate_succ]

lemma runChunks_complete (line : List Nat) (hline : splitCRLF line = none)
    (hfit : line.length + 2 ≤ MAX_REQUEST_SIZE) :
    ∀ (chunks : List (List Nat)) (b : List Nat), chunks ≠ [] →
      (∀ c ∈ chunks, c ≠ []) → b ++ chunks.flatten = line ++ [13, 10] →
      (runChunks b chunks).2 = [SrvEffect.handleLine line] := by
  intro chunks
  induction chunks with
  | nil => intro b h; exact absurd rfl h
  | cons c cs ih =>
    intro b _ hne hjoin
    by_cases hcs : cs = []
    · subst hcs
      simp only [List.flatten_cons, List.flatten_nil, List.append_nil] at hjoin
      have hlen : (b ++ c).length = line.length + 2 := by
        rw [hjoin, List.length_append]
        rfl
      have hnot : ¬ MAX_REQUEST_SIZE < line.length + 2 := by omega
      simp [runChunks, dataReceived, hjoin, if_neg hnot,
        splitCRLF_append_crlf line hline]
    · have hj : cs.flatten ≠ [] := by
        intro hj0
        cases cs with
        | nil => exact hcs rfl
        | cons c2 cs2 =>
          rw [List.flatten_eq_nil_iff] at hj0
          exact (hne c2 (by simp)) (hj0 c2 (by simp))
      have hjoin2 : (b ++ c) ++ cs.flatten = line ++ [13, 10] := by
        rw [List.append_assoc]
        simpa [List.flatten_cons] using hjoin
      have hlt : (b ++ c).length < line.length + 2 := by
        have := congrArg List.length hjoin2
        simp only [List.length_append, List.length_cons,
          List.length_nil] at this
        have hjl : 0 < cs.flatten.length := List.length_pos.mpr hj
        simp only [List.length_append]
        omega
      have hnot : ¬ MAX_REQUEST_SIZE < (b ++ c).length := by omega
      have hnone : splitCRLF (b ++ c) = none :=
        splitCRLF_partial_none line hline (b ++ c) cs.flatten hjoin2 hlt
      simp only [runChunks, dataReceived, if_neg hnot, hnone]
      simpa using ih (b ++ c) hcs (fun x hx => hne x (by simp [hx])) hjoin2

lemma runChunks_oversize_all (line : List Nat)
    (hline : splitCRLF line = none)
    (hover : MAX_REQUEST_SIZE < line.length + 2) :
    ∀ (chunks : List (List Nat)) (b : List Nat),
      (∀ c ∈ chunks, c ≠ []) → b ++ chunks.flatten = line ++ [13, 10] →
      b.length ≤ MAX_REQUEST_SIZE →
      (runChunks b chunks).2 ≠ [] ∧
      ∀ e ∈ (runChunks b chunks).2, e = oversizeEffect := by
  intro chunks
  induction chunks with
  | nil =>
    intro b _ hjoin hble
    exfalso
    simp only [List.flatten_nil, List.append_nil] at hjoin
    have := congrArg List.length hjoin
    rw [List.length_append] at this
    simp at this
    omega
  | cons c cs ih =>
    intro b hne hjoin hble
    have hjoin2 : (b ++ c) ++ cs.flatten = line ++ [13, 10] := by
      rw [List.append_assoc]
      simpa [List.flatten_cons] using hjoin
    by_cases hbuf : MAX_REQUEST_SIZE < (b ++ c).length
    · simp only [runChunks, dataReceived, if_pos hbuf]
      constructor
      · simp
      · intro e he
        rw [runChunks_oversize cs (b ++ c) hbuf] at he
        rcases List.mem_cons.mp he with he | he
        · exact he
        · exact (List.eq_of_mem_replicate he)
    · push_neg at hbuf
      have hlt : (b ++ c).length < line.length + 2 := by omega
      have hnone : splitCRLF (b ++ c) = none :=
        splitCRLF_partial_none line hline (b ++ c) cs.flatten hjoin2 hlt
      simp only [runChunks, dataReceived, if_neg (by omega :
        ¬ MAX_REQUEST_SIZE < (b ++ c).length), hnone]
      simpa using ih (b ++ c) (fun x hx => hne x (by simp [hx])) hjoin2 hbuf

/-- C5: feeding a CR LF-terminated request line to `data_received` in
arbitrary non-empty chunks: when the line plus terminator fits within
1024 bytes, the call sequence performs exactly one action, handing the
request line to `_handle_request`; when it does not fit, every action
taken is the 59 oversize error response (sent as soon as the buffer
exceeds 1024 bytes, after which `_send_response` closes the transport),
and the line is never dispatched. -/
theorem request_framing_within_limit (chunks : List (List Nat))
    (line : List Nat)
    (hne : ∀ c ∈ chunks, c ≠ [])
    (hjoin : chunks.flatten = line ++ CRLF)
    (hline : splitCRLF line = none) :
    (line.length + 2 ≤ MAX_REQUEST_SIZE →
      (runChunks [] chunks).2 = [SrvEffect.handleLine line]) ∧
    (MAX_REQUEST_SIZE < line.length + 2 →
      (runChunks [] chunks).2 ≠ [] ∧
      ∀ e ∈ (runChunks [] chunks).2, e = oversizeEffect) := by
  have hjoin2 : ([] : List Nat) ++ chunks.flatten = line ++ [13, 10] := by
    simpa [CRLF] using hjoin
  constructor
  · intro hfit
    have hchunks : chunks ≠ [] := by
      intro h
      rw [h] at hjoin
      have := congrArg List.length hjoin
      simp [CRLF] at this
    exact runChunks_complete line hline hfit chunks [] hchunks hne hjoin2
  · intro hover
    exact runChunks_oversize_all line hline hover chunks [] hne hjoin2
      (by simp [MAX_REQUEST_SIZE])

/-- Witness for C5: the two-byte request line `ge` arriving in two
chunks is dispatched exactly once. -/
theorem request_framing_within_limit_witness :
    (∀ c ∈ [[103, 101, 13], [10]], c ≠ ([] : List Nat)) ∧
    ([[103, 101, 13], [10]] : List (List Nat)).flatten = [103, 101] ++ CRLF ∧
    splitCRLF [103, 101] = none ∧
    (runChunks [] [[103, 101, 13], [10]]).2 =
      [SrvEffect.handleLine [103, 101]] := by
  refine ⟨by decide, by decide, by decide, ?_⟩
  exact (request_framing_within_limit [[103, 101, 13], [10]] [103, 101]
    (by decide) (by decide) (by decide)).1 (by decide)

end Nauyaca
